import Mathlib

/-!
Verification of the style-reference rewriting engine of
`src/mapbox-transform.ts` (the Locator Parser, Endpoint Rewriter and
Style Document Walker).

Strings are modelled as lists of characters (`Str`).  The source's
regular expression
`^(\w+):\/\/([^/?]*)(\/[^?]+)?\??(.+)?`
is embedded atom by atom: since every atom after `(\w+):\/\/` is
nullable, the regex engine's first (leftmost-greedy) attempt always
succeeds once the scheme and `://` have matched, so no backtracking is
needed and each group is the greedy `takeWhile` of its character class.
-/

abbrev Str := List Char

/-- The character class `\w` of the source regex: ASCII letters, digits, `_`. -/
def isWordChar (c : Char) : Bool := c.isAlphanum || c == '_'

/-- The character class `.` of the source regex (no `s` flag): any char except
line terminators. -/
def isDotChar (c : Char) : Bool :=
  !(c == '\n' || c == '\r' || c.toNat == 0x2028 || c.toNat == 0x2029)

/-- The character class `[^/?]` of the source regex. -/
def notSlashQuestion (c : Char) : Bool := !(c == '/' || c == '?')

/-- The character class `[^?]` of the source regex. -/
def notQuestion (c : Char) : Bool := !(c == '?')

/-- JavaScript `String.prototype.split` with a one-character separator:
`splitOnChar sep s` never returns the empty list, and splitting the empty
string yields `[[]]`, as in JS. -/
def splitOnChar (sep : Char) : Str → List Str
  | [] => [[]]
  | c :: cs =>
    let r := splitOnChar sep cs
    if c == sep then [] :: r
    else (c :: r.headD []) :: r.tail

/-- JavaScript `s.split(pat)[0]` for a non-empty pattern `pat`: the part of
`s` before the first occurrence of `pat` (all of `s` when absent). -/
def takeBeforeSub (pat : Str) : Str → Str
  | [] => []
  | c :: cs =>
    if pat.isPrefixOf (c :: cs) then []
    else c :: takeBeforeSub pat cs

/-- JavaScript `s.indexOf(pat) > -1`: `pat` occurs as a contiguous substring
of `s`. -/
def hasSub (pat : Str) : Str → Bool
  | [] => pat.isEmpty
  | c :: cs => pat.isPrefixOf (c :: cs) || hasSub pat cs

deriving instance DecidableEq for Except

/-- The result of `parseUrl` in the source: `protocol`, `authority`, `path`
(defaulted to `"/"`), and `params` (the query string split on `&`). -/
structure UrlObject where
  protocol : Str
  authority : Str
  path : Str
  params : List Str
deriving Repr, DecidableEq

/-- The message of the only error the engine throws
(`throw new Error('Unable to parse URL object')`). -/
def parseErrorMessage : Str := "Unable to parse URL object".data

/-- The regex atom `(\/[^?]+)?`: from the remainder after the authority,
optionally match a slash followed by at least one (then greedily all)
non-`?` characters; return the captured group and the remainder. -/
def parseGroup3 : Str → Option Str × Str
  | '/' :: c :: cs =>
    if c == '?' then (none, '/' :: c :: cs)
    else (some ('/' :: (c :: cs).takeWhile notQuestion),
          (c :: cs).dropWhile notQuestion)
  | r3 => (none, r3)

/-- The regex atom `\??`: consume one leading `?` when present. -/
def stripLeadQuestion : Str → Str
  | '?' :: cs => cs
  | r4 => r4

/-- Groups 2-4 of the source regex, applied to the text after `scheme://`:
`([^/?]*)` is the greedy authority, `(\/[^?]+)?` the optional path,
`\??` consumes one `?`, and `(.+)?` captures the greedy non-empty remainder
as the query string (split on `&` into `params`). -/
def parseRest (w r2 : Str) : UrlObject :=
  let authority := r2.takeWhile notSlashQuestion
  let g3r4 := parseGroup3 (r2.dropWhile notSlashQuestion)
  let r5 := stripLeadQuestion g3r4.2
  let g4 : Option Str :=
    let t := r5.takeWhile isDotChar
    if t.isEmpty then none else some t
  { protocol := w
    authority := authority
    path := (g3r4.1).getD ['/']
    params := (g4.map (splitOnChar '&')).getD [] }

/-- `parseUrl` of the source: match the regex
`^(\w+):\/\/([^/?]*)(\/[^?]+)?\??(.+)?`; throw when it does not match.
`(\w+)` is anchored and greedy, and since `:` is not a word character the
match requires exactly the maximal word-character prefix followed by `://`. -/
def parseUrl (url : Str) : Except Str UrlObject :=
  let w := url.takeWhile isWordChar
  match url.dropWhile isWordChar with
  | ':' :: '/' :: '/' :: r2 =>
    if w.isEmpty then Except.error parseErrorMessage
    else Except.ok (parseRest w r2)
  | _ => Except.error parseErrorMessage

/-- `isMapboxURL` of the source: `url.indexOf('mapbox:') === 0`. -/
def isMapboxURL (url : Str) : Bool := "mapbox:".data.isPrefixOf url

/-- `formatUrl` of the source: replace protocol and authority with those of
`parseUrl("https://api.mapbox.com")`, push `access_token={token}`, then join
the params with `&` prefixed by `?` when the param list is non-empty. -/
def formatUrl (u : UrlObject) (accessToken : Str) : Except Str Str :=
  match parseUrl "https://api.mapbox.com".data with
  | Except.error e => Except.error e
  | Except.ok api =>
    let params := u.params ++ ["access_token=".data ++ accessToken]
    let paramStr : Str :=
      if params.length != 0 then '?' :: List.intercalate ['&'] params else []
    Except.ok (api.protocol ++ "://".data ++ api.authority ++ u.path ++ paramStr)

/-- `normalizeStyleURL` of the source. -/
def normalizeStyleURL (url accessToken : Str) : Except Str Str := do
  let u ← parseUrl url
  formatUrl { u with path := "/styles/v1".data ++ u.path } accessToken

/-- `normalizeGlyphsURL` of the source. -/
def normalizeGlyphsURL (url accessToken : Str) : Except Str Str := do
  let u ← parseUrl url
  formatUrl { u with path := "/fonts/v1".data ++ u.path } accessToken

/-- `normalizeSourceURL` of the source: path `/v4/{authority}.json` and an
extra bare `secure` query flag. -/
def normalizeSourceURL (url accessToken : Str) : Except Str Str := do
  let u ← parseUrl url
  formatUrl { u with
    path := "/v4/".data ++ u.authority ++ ".json".data
    params := u.params ++ ["secure".data] } accessToken

/-- `normalizeSpriteURL` of the source.  The primary branch uses the first
two non-empty path segments as owner and style id and appends `@2x` when the
raw url contains it; the fallback branch (fewer than two segments) splits the
path on `.`, using element 0 as base path and element 1 (when present and
non-empty, JS `path[1] || 'json'`) as extension, truncating the base path at
the first `@2x`. -/
def normalizeSpriteURL (url _format _extension accessToken : Str) :
    Except Str Str := do
  let u ← parseUrl url
  let pathParts := (splitOnChar '/' u.path).filter (fun p => p.length > 0)
  match pathParts with
  | username :: styleId :: _ =>
    let format : Str := if hasSub "@2x".data url then "@2x".data else []
    formatUrl { u with
      path := "/styles/v1/".data ++ username ++ ['/'] ++ styleId ++
        "/sprite".data ++ format } accessToken
  | _ =>
    let path := splitOnChar '.' u.path
    let properPath0 := path.headD []
    let extension : Str :=
      match path.get? 1 with
      | some e => if e.isEmpty then "json".data else e
      | none => "json".data
    let pf : Str × Str :=
      if hasSub "@2x".data properPath0 then
        (takeBeforeSub "@2x".data properPath0, "@2x".data)
      else (properPath0, [])
    formatUrl { u with
      path := "/styles/v1".data ++ pf.1 ++ "/sprite".data ++ pf.2 ++
        ['.'] ++ extension } accessToken

/-- `transformMapboxUrl` of the source: the five-branch classification
cascade.  `Except.ok none` models the `undefined` pass-through return. -/
def transformMapboxUrl (url resourceType accessToken : Str) :
    Except Str (Option Str) :=
  if hasSub "/styles/".data url && !(hasSub "/sprite".data url) then
    (normalizeStyleURL url accessToken).map some
  else if hasSub "/sprites/".data url then
    (normalizeSpriteURL url [] ".json".data accessToken).map some
  else if hasSub "/fonts/".data url then
    (normalizeGlyphsURL url accessToken).map some
  else if hasSub "/v4/".data url then
    (normalizeSourceURL url accessToken).map some
  else if !resourceType.isEmpty && resourceType == "Source".data then
    (normalizeSourceURL url accessToken).map some
  else Except.ok none

/-- One entry of `style.sources`: the engine inspects only its `url`; every
other property is carried opaquely in `otherProps`. -/
structure SourceDesc where
  url : Option Str
  otherProps : List (Str × Str)
deriving Repr, DecidableEq

/-- The top-level projection descriptor: an optional `name` property plus
the remaining properties, carried opaquely. -/
structure Projection where
  name : Option Str
  otherFields : List (Str × Str)
deriving Repr, DecidableEq

/-- The `sprite` field of a style: a string, or a structured (multi-sprite)
value that the walker never touches. -/
inductive SpriteVal where
  | str (s : Str)
  | structured (v : List (Str × Str))
deriving Repr, DecidableEq

/-- The fields of a `StyleSpecification` that `transformMapboxStyle`
inspects, plus an opaque bag for all remaining fields. -/
structure StyleSpec where
  projection : Option Projection
  sources : Option (List (Str × SourceDesc))
  sprite : Option SpriteVal
  glyphs : Option Str
  otherFields : List (Str × Str)
deriving Repr, DecidableEq

/-- The `for (const sourceId in style.sources)` loop of the source: each
entry whose `url` is a truthy string starting with `mapbox:` is rewritten
with role `Source`; a thrown parse error aborts the loop (and the whole
transform). -/
def transformSourcesList (l : List (Str × SourceDesc)) (accessToken : Str) :
    Except Str (List (Str × SourceDesc)) :=
  match l with
  | [] => Except.ok []
  | (sid, src) :: rest => do
    let src' ←
      match src.url with
      | some u =>
        if !u.isEmpty && isMapboxURL u then do
          let transformed ← transformMapboxUrl u "Source".data accessToken
          match transformed with
          | some t => pure { src with url := some t }
          | none => pure src
        else pure src
      | none => pure src
    let rest' ← transformSourcesList rest accessToken
    pure ((sid, src') :: rest')

/-- The `Transform sprite URLs` block of the source: the `sprite` field is
rewritten (role `Sprite`) only when it is a truthy string starting with
`mapbox:`; a structured sprite value is left untouched. -/
def transformSpriteField (sprite : Option SpriteVal) (accessToken : Str) :
    Except Str (Option SpriteVal) :=
  match sprite with
  | some (SpriteVal.str s) =>
    if !s.isEmpty && isMapboxURL s then do
      let transformed ← transformMapboxUrl s "Sprite".data accessToken
      match transformed with
      | some t => pure (some (SpriteVal.str t))
      | none => pure (some (SpriteVal.str s))
    else pure (some (SpriteVal.str s))
  | other => pure other

/-- The `Transform glyphs URLs` block of the source: the `glyphs` field is
rewritten (role `Glyphs`) only when it is truthy and starts with `mapbox:`. -/
def transformGlyphsField (glyphs : Option Str) (accessToken : Str) :
    Except Str (Option Str) :=
  match glyphs with
  | some g =>
    if !g.isEmpty && isMapboxURL g then do
      let transformed ← transformMapboxUrl g "Glyphs".data accessToken
      match transformed with
      | some t => pure (some t)
      | none => pure (some g)
    else pure (some g)
  | none => pure none

/-- `transformMapboxStyle` of the source: strip `projection.name`, then
rewrite `sources` urls (role `Source`), the string `sprite` field (role
`Sprite`) and the `glyphs` field (role `Glyphs`), each only when the value
is truthy and starts with `mapbox:`.  A JS exception is modelled as
`Except.error`. -/
def transformMapboxStyle (style : StyleSpec) (accessToken : Str) :
    Except Str StyleSpec := do
  let projection := style.projection.map fun p => { p with name := none }
  let sources ←
    match style.sources with
    | none => pure none
    | some l => do
      let l' ← transformSourcesList l accessToken
      pure (some l')
  let sprite ← transformSpriteField style.sprite accessToken
  let glyphs ← transformGlyphsField style.glyphs accessToken
  pure { style with
    projection := projection
    sources := sources
    sprite := sprite
    glyphs := glyphs }

/-- The query-parameter assembly of `formatUrl`: join with `&` and prefix
with `?` exactly when the parameter list is non-empty. -/
def queryPart (ps : List Str) : Str :=
  if ps.length != 0 then '?' :: List.intercalate ['&'] ps else []

/-! ### List helper lemmas -/

theorem takeWhile_append_all (p : Char → Bool) (xs ys : Str)
    (h : ∀ x ∈ xs, p x = true) :
    (xs ++ ys).takeWhile p = xs ++ ys.takeWhile p := by
  induction xs with
  | nil => simp
  | cons a l ih =>
    have ha : p a = true := h a (by simp)
    simp only [List.cons_append, List.takeWhile_cons, ha, if_true]
    rw [ih (fun x hx => h x (by simp [hx]))]

theorem dropWhile_append_all (p : Char → Bool) (xs ys : Str)
    (h : ∀ x ∈ xs, p x = true) :
    (xs ++ ys).dropWhile p = ys.dropWhile p := by
  induction xs with
  | nil => simp
  | cons a l ih =>
    have ha : p a = true := h a (by simp)
    simp only [List.cons_append, List.dropWhile_cons, ha, if_true]
    exact ih (fun x hx => h x (by simp [hx]))

theorem takeWhile_all (p : Char → Bool) (xs : Str)
    (h : ∀ x ∈ xs, p x = true) : xs.takeWhile p = xs := by
  have := takeWhile_append_all p xs [] h
  simpa using this

theorem dropWhile_all (p : Char → Bool) (xs : Str)
    (h : ∀ x ∈ xs, p x = true) : xs.dropWhile p = [] := by
  have := dropWhile_append_all p xs [] h
  simpa using this

theorem takeWhile_cons_of_neg (p : Char → Bool) (a : Char) (l : Str)
    (h : p a = false) : (a :: l).takeWhile p = [] := by
  simp [List.takeWhile_cons, h]

theorem dropWhile_cons_of_neg (p : Char → Bool) (a : Char) (l : Str)
    (h : p a = false) : (a :: l).dropWhile p = a :: l := by
  simp [List.dropWhile_cons, h]

/-! ### Parser lemmas -/

theorem apiUrl_parse :
    parseUrl "https://api.mapbox.com".data =
      Except.ok ⟨"https".data, "api.mapbox.com".data, ['/'], []⟩ := by decide

theorem formatUrl_eq (u : UrlObject) (tok : Str) :
    formatUrl u tok = Except.ok ("https://api.mapbox.com".data ++ u.path ++
      queryPart (u.params ++ ["access_token=".data ++ tok])) := by
  unfold formatUrl
  rw [apiUrl_parse]
  rfl

theorem parseUrl_scheme_append (scheme rest : Str) (h1 : scheme ≠ [])
    (h2 : ∀ c ∈ scheme, isWordChar c = true) :
    parseUrl (scheme ++ ':' :: '/' :: '/' :: rest) =
      Except.ok (parseRest scheme rest) := by
  have hc : isWordChar ':' = false := by decide
  have ht : (scheme ++ ':' :: '/' :: '/' :: rest).takeWhile isWordChar
      = scheme := by
    rw [takeWhile_append_all _ _ _ h2, takeWhile_cons_of_neg _ _ _ hc,
      List.append_nil]
  have hd : (scheme ++ ':' :: '/' :: '/' :: rest).dropWhile isWordChar
      = ':' :: '/' :: '/' :: rest := by
    rw [dropWhile_append_all _ _ _ h2, dropWhile_cons_of_neg _ _ _ hc]
  unfold parseUrl
  rw [ht, hd]
  simp [h1]

/-! ### Except reduction helpers -/

@[simp] theorem except_bind_ok {α β : Type} (a : α)
    (f : α → Except Str β) : (Except.ok a : Except Str α) >>= f = f a := rfl

@[simp] theorem except_bind_error {α β : Type} (e : Str)
    (f : α → Except Str β) :
    (Except.error e : Except Str α) >>= f = Except.error e := rfl

@[simp] theorem except_map_ok {α β : Type} (f : α → β) (a : α) :
    (Except.ok a : Except Str α).map f = Except.ok (f a) := rfl

@[simp] theorem except_map_error {α β : Type} (f : α → β) (e : Str) :
    (Except.error e : Except Str α).map f = Except.error e := rfl

@[simp] theorem except_pure_eq {α : Type} (a : α) :
    (pure a : Except Str α) = Except.ok a := rfl

/-! ### `parseRest` on the input shapes of the claims -/

theorem parseRest_authority_only (w tid : Str)
    (h : ∀ c ∈ tid, notSlashQuestion c = true) :
    parseRest w tid = ⟨w, tid, ['/'], []⟩ := by
  simp only [parseRest]
  rw [takeWhile_all _ _ h, dropWhile_all _ _ h]
  rfl

theorem parseRest_auth_path (w user styleid : Str)
    (hu : ∀ c ∈ user, notSlashQuestion c = true)
    (hs1 : styleid ≠ [])
    (hs2 : ∀ c ∈ styleid, notQuestion c = true) :
    parseRest w (user ++ '/' :: styleid) = ⟨w, user, '/' :: styleid, []⟩ := by
  obtain ⟨c, cs, rfl⟩ : ∃ c cs, styleid = c :: cs := by
    cases styleid with
    | nil => exact absurd rfl hs1
    | cons c cs => exact ⟨c, cs, rfl⟩
  have hsq : notSlashQuestion '/' = false := by decide
  have h1 : (user ++ '/' :: c :: cs).takeWhile notSlashQuestion = user := by
    rw [takeWhile_append_all _ _ _ hu, takeWhile_cons_of_neg _ _ _ hsq,
      List.append_nil]
  have h2 : (user ++ '/' :: c :: cs).dropWhile notSlashQuestion
      = '/' :: c :: cs := by
    rw [dropWhile_append_all _ _ _ hu, dropWhile_cons_of_neg _ _ _ hsq]
  have hc : (c == '?') = false := by
    have := hs2 c (by simp)
    simpa [notQuestion] using this
  simp only [parseRest, parseGroup3]
  rw [h1, h2]
  simp only [parseGroup3, hc, Bool.false_eq_true, if_false]
  rw [takeWhile_all _ _ hs2, dropWhile_all _ _ hs2]
  rfl

theorem parseRest_slash_query (w auth q : Str)
    (ha : ∀ c ∈ auth, notSlashQuestion c = true)
    (hq2 : ∀ c ∈ q, isDotChar c = true) :
    parseRest w (auth ++ '/' :: '?' :: q) =
      ⟨w, auth, ['/'], splitOnChar '&' ('/' :: '?' :: q)⟩ := by
  have hsq : notSlashQuestion '/' = false := by decide
  have h1 : (auth ++ '/' :: '?' :: q).takeWhile notSlashQuestion = auth := by
    rw [takeWhile_append_all _ _ _ ha, takeWhile_cons_of_neg _ _ _ hsq,
      List.append_nil]
  have h2 : (auth ++ '/' :: '?' :: q).dropWhile notSlashQuestion
      = '/' :: '?' :: q := by
    rw [dropWhile_append_all _ _ _ ha, dropWhile_cons_of_neg _ _ _ hsq]
  have h3 : ('/' :: '?' :: q).takeWhile isDotChar = '/' :: '?' :: q := by
    apply takeWhile_all
    intro x hx
    simp only [List.mem_cons] at hx
    rcases hx with rfl | rfl | hx
    · decide
    · decide
    · exact hq2 x hx
  have hg : parseGroup3 ('/' :: '?' :: q) = (none, '/' :: '?' :: q) := by
    simp [parseGroup3]
  have hs : stripLeadQuestion ('/' :: '?' :: q) = '/' :: '?' :: q := rfl
  simp only [parseRest]
  rw [h1, h2, hg]
  simp only [hs]
  rw [h3]
  simp

/-! ### `splitOnChar` and `List.intercalate` -/

theorem splitOnChar_ne_nil (sep : Char) (s : Str) : splitOnChar sep s ≠ [] := by
  cases s with
  | nil => simp [splitOnChar]
  | cons c cs =>
    simp only [splitOnChar]
    split <;> simp

theorem intercalate_amp_single (x : Str) : List.intercalate ['&'] [x] = x := by
  simp [List.intercalate]

theorem intercalate_amp_cons (a b : Str) (l : List Str) :
    List.intercalate ['&'] (a :: b :: l) =
      a ++ '&' :: List.intercalate ['&'] (b :: l) := by
  simp [List.intercalate, List.intersperse]

theorem intercalate_splitOnAmp (s : Str) :
    List.intercalate ['&'] (splitOnChar '&' s) = s := by
  induction s with
  | nil => simp [splitOnChar, List.intercalate]
  | cons c cs ih =>
    obtain ⟨r, rs, hr⟩ : ∃ r rs, splitOnChar '&' cs = r :: rs := by
      cases h : splitOnChar '&' cs with
      | nil => exact absurd h (splitOnChar_ne_nil _ _)
      | cons r rs => exact ⟨r, rs, rfl⟩
    rw [hr] at ih
    by_cases hc : c = '&'
    · subst hc
      simp only [splitOnChar, beq_self_eq_true, if_true]
      rw [hr, intercalate_amp_cons, ih]
      rfl
    · have hcb : (c == '&') = false := by simp [hc]
      simp only [splitOnChar, hcb, Bool.false_eq_true, if_false]
      rw [hr]
      cases rs with
      | nil =>
        simp only [List.headD, List.tail]
        rw [intercalate_amp_single] at ih ⊢
        rw [ih]
      | cons r2 rs2 =>
        simp only [List.headD, List.tail]
        rw [intercalate_amp_cons]
        rw [intercalate_amp_cons] at ih
        simp [ih]

/-! ### Rewritten endpoints always target the fixed API host -/

theorem isMapboxURL_https (rest : Str) :
    isMapboxURL ("https://api.mapbox.com".data ++ rest) = false := rfl

theorem normalizeStyleURL_ok_shape (url tok s : Str)
    (h : normalizeStyleURL url tok = Except.ok s) :
    ∃ rest, s = "https://api.mapbox.com".data ++ rest := by
  unfold normalizeStyleURL at h
  cases hp : parseUrl url with
  | error e => rw [hp] at h; simp at h
  | ok u =>
    rw [hp] at h
    rw [except_bind_ok, formatUrl_eq] at h
    exact ⟨_, (Except.ok.inj h).symm⟩

theorem normalizeGlyphsURL_ok_shape (url tok s : Str)
    (h : normalizeGlyphsURL url tok = Except.ok s) :
    ∃ rest, s = "https://api.mapbox.com".data ++ rest := by
  unfold normalizeGlyphsURL at h
  cases hp : parseUrl url with
  | error e => rw [hp] at h; simp at h
  | ok u =>
    rw [hp] at h
    rw [except_bind_ok, formatUrl_eq] at h
    exact ⟨_, (Except.ok.inj h).symm⟩

theorem normalizeSourceURL_ok_shape (url tok s : Str)
    (h : normalizeSourceURL url tok = Except.ok s) :
    ∃ rest, s = "https://api.mapbox.com".data ++ rest := by
  unfold normalizeSourceURL at h
  cases hp : parseUrl url with
  | error e => rw [hp] at h; simp at h
  | ok u =>
    rw [hp] at h
    rw [except_bind_ok, formatUrl_eq] at h
    exact ⟨_, (Except.ok.inj h).symm⟩

theorem normalizeSpriteURL_ok_shape (url f e tok s : Str)
    (h : normalizeSpriteURL url f e tok = Except.ok s) :
    ∃ rest, s = "https://api.mapbox.com".data ++ rest := by
  unfold normalizeSpriteURL at h
  cases hp : parseUrl url with
  | error er => rw [hp] at h; simp at h
  | ok u =>
    rw [hp] at h
    rw [except_bind_ok] at h
    cases hpp : (splitOnChar '/' u.path).filter (fun p => p.length > 0) with
    | nil =>
      rw [hpp] at h
      rw [formatUrl_eq] at h
      exact ⟨_, (Except.ok.inj h).symm⟩
    | cons x xs =>
      cases xs with
      | nil =>
        rw [hpp] at h
        rw [formatUrl_eq] at h
        exact ⟨_, (Except.ok.inj h).symm⟩
      | cons y ys =>
        rw [hpp] at h
        rw [formatUrl_eq] at h
        exact ⟨_, (Except.ok.inj h).symm⟩

theorem transformMapboxUrl_ok_some (url role tok s : Str)
    (h : transformMapboxUrl url role tok = Except.ok (some s)) :
    isMapboxURL s = false := by
  unfold transformMapboxUrl at h
  split at h
  · cases hn : normalizeStyleURL url tok with
    | error e => rw [hn] at h; simp at h
    | ok v =>
      rw [hn, except_map_ok] at h
      obtain ⟨rest, hrest⟩ := normalizeStyleURL_ok_shape _ _ _ hn
      have hv : v = s := by simpa using h
      rw [← hv, hrest]
      exact isMapboxURL_https rest
  · split at h
    · cases hn : normalizeSpriteURL url [] ".json".data tok with
      | error e => rw [hn] at h; simp at h
      | ok v =>
        rw [hn, except_map_ok] at h
        obtain ⟨rest, hrest⟩ := normalizeSpriteURL_ok_shape _ _ _ _ _ hn
        have hv : v = s := by simpa using h
        rw [← hv, hrest]
        exact isMapboxURL_https rest
    · split at h
      · cases hn : normalizeGlyphsURL url tok with
        | error e => rw [hn] at h; simp at h
        | ok v =>
          rw [hn, except_map_ok] at h
          obtain ⟨rest, hrest⟩ := normalizeGlyphsURL_ok_shape _ _ _ hn
          have hv : v = s := by simpa using h
          rw [← hv, hrest]
          exact isMapboxURL_https rest
      · split at h
        · cases hn : normalizeSourceURL url tok with
          | error e => rw [hn] at h; simp at h
          | ok v =>
            rw [hn, except_map_ok] at h
            obtain ⟨rest, hrest⟩ := normalizeSourceURL_ok_shape _ _ _ hn
            have hv : v = s := by simpa using h
            rw [← hv, hrest]
            exact isMapboxURL_https rest
        · split at h
          · cases hn : normalizeSourceURL url tok with
            | error e => rw [hn] at h; simp at h
            | ok v =>
              rw [hn, except_map_ok] at h
              obtain ⟨rest, hrest⟩ := normalizeSourceURL_ok_shape _ _ _ hn
              have hv : v = s := by simpa using h
              rw [← hv, hrest]
              exact isMapboxURL_https rest
          · simp at h

theorem queryPart_one (x : Str) : queryPart [x] = '?' :: x := by
  simp [queryPart, intercalate_amp_single]

theorem queryPart_two (x y : Str) :
    queryPart [x, y] = '?' :: (x ++ '&' :: y) := by
  simp [queryPart, intercalate_amp_cons, intercalate_amp_single]

/-- Claim C2: the resource-kind classification of `transformMapboxUrl` is
decided by substring checks on the raw string in exactly the source's order,
first match wins: `/styles/` without `/sprite` gives Style, else `/sprites/`
gives Sprite, else `/fonts/` gives Glyphs, else `/v4/` gives Source, else a
caller role of `Source` gives Source, and otherwise no rewrite is performed
(the cascade returns the pass-through value, which the Walker interprets as
leaving the original string unchanged). -/
theorem C2_classification_cascade (url role tok : Str) :
    (hasSub "/styles/".data url = true → hasSub "/sprite".data url = false →
      transformMapboxUrl url role tok = (normalizeStyleURL url tok).map some)
  ∧ ((hasSub "/styles/".data url = false ∨ hasSub "/sprite".data url = true) →
      hasSub "/sprites/".data url = true →
      transformMapboxUrl url role tok =
        (normalizeSpriteURL url [] ".json".data tok).map some)
  ∧ ((hasSub "/styles/".data url = false ∨ hasSub "/sprite".data url = true) →
      hasSub "/sprites/".data url = false →
      hasSub "/fonts/".data url = true →
      transformMapboxUrl url role tok =
        (normalizeGlyphsURL url tok).map some)
  ∧ ((hasSub "/styles/".data url = false ∨ hasSub "/sprite".data url = true) →
      hasSub "/sprites/".data url = false →
      hasSub "/fonts/".data url = false →
      hasSub "/v4/".data url = true →
      transformMapboxUrl url role tok =
        (normalizeSourceURL url tok).map some)
  ∧ ((hasSub "/styles/".data url = false ∨ hasSub "/sprite".data url = true) →
      hasSub "/sprites/".data url = false →
      hasSub "/fonts/".data url = false →
      hasSub "/v4/".data url = false →
      role = "Source".data →
      transformMapboxUrl url role tok =
        (normalizeSourceURL url tok).map some)
  ∧ ((hasSub "/styles/".data url = false ∨ hasSub "/sprite".data url = true) →
      hasSub "/sprites/".data url = false →
      hasSub "/fonts/".data url = false →
      hasSub "/v4/".data url = false →
      (role == "Source".data) = false →
      transformMapboxUrl url role tok = Except.ok none) := by
  refine ⟨?_, ?_, ?_, ?_, ?_, ?_⟩
  · intro h1 h2
    simp [transformMapboxUrl, h1, h2]
  · intro h1 h2
    rcases h1 with h1 | h1 <;> simp [transformMapboxUrl, h1, h2]
  · intro h1 h2 h3
    rcases h1 with h1 | h1 <;> simp [transformMapboxUrl, h1, h2, h3]
  · intro h1 h2 h3 h4
    rcases h1 with h1 | h1 <;> simp [transformMapboxUrl, h1, h2, h3, h4]
  · intro h1 h2 h3 h4 h5
    subst h5
    rcases h1 with h1 | h1 <;>
      simp [transformMapboxUrl, h1, h2, h3, h4]
  · intro h1 h2 h3 h4 h5
    rcases h1 with h1 | h1 <;>
      simp [transformMapboxUrl, h1, h2, h3, h4, h5]

/-- Witness for C2 at concrete inputs, one per branch of the cascade. -/
theorem C2_classification_cascade_witness :
    (transformMapboxUrl "mapbox://styles/u/s".data "".data "T".data =
      (normalizeStyleURL "mapbox://styles/u/s".data "T".data).map some)
  ∧ (transformMapboxUrl "mapbox://sprites/u/s".data "".data "T".data =
      (normalizeSpriteURL "mapbox://sprites/u/s".data [] ".json".data
        "T".data).map some)
  ∧ (transformMapboxUrl "mapbox://fonts/u/f".data "".data "T".data =
      (normalizeGlyphsURL "mapbox://fonts/u/f".data "T".data).map some)
  ∧ (transformMapboxUrl "mapbox://v4/x".data "".data "T".data =
      (normalizeSourceURL "mapbox://v4/x".data "T".data).map some)
  ∧ (transformMapboxUrl "mapbox://tileset".data "Source".data "T".data =
      (normalizeSourceURL "mapbox://tileset".data "T".data).map some)
  ∧ (transformMapboxUrl "mapbox://tileset".data "Sprite".data "T".data =
      Except.ok none) :=
  ⟨(C2_classification_cascade "mapbox://styles/u/s".data "".data "T".data).1
      (by decide) (by decide),
   (C2_classification_cascade "mapbox://sprites/u/s".data "".data
      "T".data).2.1 (Or.inl (by decide)) (by decide),
   (C2_classification_cascade "mapbox://fonts/u/f".data "".data
      "T".data).2.2.1 (Or.inl (by decide)) (by decide) (by decide),
   (C2_classification_cascade "mapbox://v4/x".data "".data
      "T".data).2.2.2.1 (Or.inl (by decide)) (by decide) (by decide)
      (by decide),
   (C2_classification_cascade "mapbox://tileset".data "Source".data
      "T".data).2.2.2.2.1 (Or.inl (by decide)) (by decide) (by decide)
      (by decide) rfl,
   (C2_classification_cascade "mapbox://tileset".data "Sprite".data
      "T".data).2.2.2.2.2 (Or.inl (by decide)) (by decide) (by decide)
      (by decide) (by decide)⟩

/-- Claim C3 counterexample: rewriting `mapbox://user/styleid` as Style kind
does not produce `https://api.mapbox.com/styles/v1/user/styleid?...` — the
owner segment is parsed as the authority and discarded, so the output path
is `/styles/v1/styleid`. -/
theorem C3_owner_dropped_cex :
    normalizeStyleURL "mapbox://user/styleid".data "TOKEN".data =
      Except.ok
        "https://api.mapbox.com/styles/v1/styleid?access_token=TOKEN".data
  ∧ normalizeStyleURL "mapbox://user/styleid".data "TOKEN".data ≠
      Except.ok
        "https://api.mapbox.com/styles/v1/user/styleid?access_token=TOKEN".data
    := by
  constructor
  · decide
  · decide

/-- Claim C3 (amended): for every locator `mapbox://user/styleid`, rewriting
as Style kind produces `https://api.mapbox.com/styles/v1/styleid?access_token=TOKEN`:
the output path is `/styles/v1` followed by the part after the owner
segment, and the owner (the authority) does not appear in the output. -/
theorem C3_style_rewrite_amended (user styleid tok : Str)
    (hu : ∀ c ∈ user, notSlashQuestion c = true)
    (hs1 : styleid ≠ [])
    (hs2 : ∀ c ∈ styleid, notQuestion c = true) :
    normalizeStyleURL ("mapbox://".data ++ user ++ '/' :: styleid) tok =
      Except.ok ("https://api.mapbox.com/styles/v1/".data ++ styleid ++
        "?access_token=".data ++ tok) := by
  have hsh : "mapbox://".data ++ user ++ '/' :: styleid =
      "mapbox".data ++ ':' :: '/' :: '/' :: (user ++ '/' :: styleid) := rfl
  have hp : parseUrl ("mapbox://".data ++ user ++ '/' :: styleid) =
      Except.ok ⟨"mapbox".data, user, '/' :: styleid, []⟩ := by
    rw [hsh, parseUrl_scheme_append _ _ (by decide) (by decide),
      parseRest_auth_path _ _ _ hu hs1 hs2]
  unfold normalizeStyleURL
  rw [hp, except_bind_ok, formatUrl_eq]
  simp only [List.nil_append, queryPart_one]
  congr 1
  simp only [List.append_assoc, List.cons_append]
  rfl

/-- Witness for C3 (amended) at `user = "user"`, `styleid = "styleid"`,
`tok = "TOKEN"`. -/
theorem C3_style_rewrite_amended_witness :
    normalizeStyleURL ("mapbox://".data ++ "user".data ++ '/' :: "styleid".data)
      "TOKEN".data =
    Except.ok ("https://api.mapbox.com/styles/v1/".data ++ "styleid".data ++
      "?access_token=".data ++ "TOKEN".data) :=
  C3_style_rewrite_amended "user".data "styleid".data "TOKEN".data
    (by decide) (by decide) (by decide)

/-- Claim C5: for every pathless source locator `mapbox://tileset-id`,
rewriting as Source kind produces
`https://api.mapbox.com/v4/tileset-id.json?secure&access_token=TOKEN`. -/
theorem C5_source_rewrite (tid tok : Str)
    (h : ∀ c ∈ tid, notSlashQuestion c = true) :
    normalizeSourceURL ("mapbox://".data ++ tid) tok =
      Except.ok ("https://api.mapbox.com/v4/".data ++ tid ++
        ".json?secure&access_token=".data ++ tok) := by
  have hsh : "mapbox://".data ++ tid =
      "mapbox".data ++ ':' :: '/' :: '/' :: tid := rfl
  have hp : parseUrl ("mapbox://".data ++ tid) =
      Except.ok ⟨"mapbox".data, tid, ['/'], []⟩ := by
    rw [hsh, parseUrl_scheme_append _ _ (by decide) (by decide),
      parseRest_authority_only _ _ h]
  unfold normalizeSourceURL
  rw [hp, except_bind_ok, formatUrl_eq]
  simp only [List.nil_append, List.singleton_append, queryPart_two]
  congr 1
  simp only [List.append_assoc, List.cons_append]
  rfl

/-- Witness for C5 at `tid = "user.tileset"`, `tok = "TKN"`. -/
theorem C5_source_rewrite_witness :
    normalizeSourceURL ("mapbox://".data ++ "user.tileset".data) "TKN".data =
      Except.ok ("https://api.mapbox.com/v4/".data ++ "user.tileset".data ++
        ".json?secure&access_token=".data ++ "TKN".data) :=
  C5_source_rewrite "user.tileset".data "TKN".data (by decide)

theorem queryPart_cons (x : Str) (l : List Str) :
    queryPart (x :: l) = '?' :: List.intercalate ['&'] (x :: l) := by
  simp [queryPart]

theorem intercalate_amp_append (xs ys : List Str) (hxs : xs ≠ [])
    (hys : ys ≠ []) :
    List.intercalate ['&'] (xs ++ ys) =
      List.intercalate ['&'] xs ++ '&' :: List.intercalate ['&'] ys := by
  induction xs with
  | nil => exact absurd rfl hxs
  | cons a l ih =>
    cases l with
    | nil =>
      cases ys with
      | nil => exact absurd rfl hys
      | cons b bs =>
        simp only [List.singleton_append, intercalate_amp_cons,
          intercalate_amp_single]
    | cons a2 l2 =>
      have h2 : (a2 :: l2) ++ ys = a2 :: (l2 ++ ys) := rfl
      calc List.intercalate ['&'] ((a :: a2 :: l2) ++ ys)
          = List.intercalate ['&'] (a :: a2 :: (l2 ++ ys)) := rfl
        _ = a ++ '&' :: List.intercalate ['&'] (a2 :: (l2 ++ ys)) :=
            intercalate_amp_cons _ _ _
        _ = a ++ '&' :: (List.intercalate ['&'] (a2 :: l2) ++
              '&' :: List.intercalate ['&'] ys) := by
            rw [← h2, ih (by simp)]
        _ = (a ++ '&' :: List.intercalate ['&'] (a2 :: l2)) ++
              '&' :: List.intercalate ['&'] ys := by
            simp [List.append_assoc]
        _ = List.intercalate ['&'] (a :: a2 :: l2) ++
              '&' :: List.intercalate ['&'] ys := by
            rw [intercalate_amp_cons]

/-- Claim C10 counterexample: for `mapbox://host/?a=1&b=2` (a locator of the
form `scheme://authority/?query`) the parser does split the raw remainder on
`&`: params is `["/?a=1", "b=2"]`, not the single raw element
`["/?a=1&b=2"]`. -/
theorem C10_params_split_cex :
    parseUrl "mapbox://host/?a=1&b=2".data =
      Except.ok ⟨"mapbox".data, "host".data, ['/'],
        ["/?a=1".data, "b=2".data]⟩
  ∧ parseUrl "mapbox://host/?a=1&b=2".data ≠
      Except.ok ⟨"mapbox".data, "host".data, ['/'], ["/?a=1&b=2".data]⟩ := by
  constructor
  · decide
  · decide

/-- Claim C10 (amended): for every locator `scheme://authority/?query` — a
slash immediately followed by the `?` of a query — the parser succeeds and
returns path `/` together with the raw remainder *including the slash and
question mark* split on `&` (so the first param carries the `/?` prefix, and
params is a single raw element exactly when the query contains no `&`);
this raw fragment is then emitted verbatim (rejoined with `&`) into the
rewritten endpoint's query string, as shown for the Source kind. -/
theorem C10_slash_query_amended (scheme auth q tok : Str)
    (h1 : scheme ≠ []) (h2 : ∀ c ∈ scheme, isWordChar c = true)
    (ha : ∀ c ∈ auth, notSlashQuestion c = true)
    (hq : ∀ c ∈ q, isDotChar c = true) :
    parseUrl (scheme ++ "://".data ++ auth ++ "/?".data ++ q) =
      Except.ok ⟨scheme, auth, ['/'], splitOnChar '&' ("/?".data ++ q)⟩
  ∧ normalizeSourceURL (scheme ++ "://".data ++ auth ++ "/?".data ++ q) tok =
      Except.ok ("https://api.mapbox.com/v4/".data ++ auth ++ ".json?".data ++
        "/?".data ++ q ++ "&secure&access_token=".data ++ tok) := by
  have hsh : scheme ++ "://".data ++ auth ++ "/?".data ++ q =
      scheme ++ ':' :: '/' :: '/' :: (auth ++ '/' :: '?' :: q) := by
    simp
  have hp : parseUrl (scheme ++ "://".data ++ auth ++ "/?".data ++ q) =
      Except.ok ⟨scheme, auth, ['/'], splitOnChar '&' ('/' :: '?' :: q)⟩ := by
    rw [hsh, parseUrl_scheme_append _ _ h1 h2,
      parseRest_slash_query _ _ _ ha hq]
  refine ⟨hp, ?_⟩
  unfold normalizeSourceURL
  rw [hp, except_bind_ok, formatUrl_eq]
  obtain ⟨r, rs, hr⟩ : ∃ r rs, splitOnChar '&' ('/' :: '?' :: q) = r :: rs := by
    cases h : splitOnChar '&' ('/' :: '?' :: q) with
    | nil => exact absurd h (splitOnChar_ne_nil _ _)
    | cons r rs => exact ⟨r, rs, rfl⟩
  have hne : splitOnChar '&' ('/' :: '?' :: q) ≠ [] := splitOnChar_ne_nil _ _
  have hjoin : List.intercalate ['&']
      ((splitOnChar '&' ('/' :: '?' :: q) ++ ["secure".data]) ++
        ["access_token=".data ++ tok]) =
      '/' :: '?' :: q ++ "&secure&access_token=".data ++ tok := by
    rw [List.append_assoc,
      intercalate_amp_append _ _ hne (by simp),
      intercalate_splitOnAmp]
    simp only [List.singleton_append, intercalate_amp_cons,
      intercalate_amp_single]
    simp [List.append_assoc]
  have hqp : queryPart ((splitOnChar '&' ('/' :: '?' :: q) ++
      ["secure".data]) ++ ["access_token=".data ++ tok]) =
      '?' :: ('/' :: '?' :: q ++ "&secure&access_token=".data ++ tok) := by
    rw [hr]
    rw [← hr]
    rw [show (splitOnChar '&' ('/' :: '?' :: q) ++ ["secure".data]) ++
        ["access_token=".data ++ tok] =
        splitOnChar '&' ('/' :: '?' :: q) ++
          (["secure".data] ++ ["access_token=".data ++ tok]) from
      List.append_assoc _ _ _]
    rw [hr, List.cons_append, queryPart_cons, ← List.cons_append, ← hr,
      ← List.append_assoc, hjoin]
  rw [hqp]
  congr 1
  simp only [List.append_assoc, List.cons_append]
  rfl

/-- Witness for C10 (amended) at `mapbox://host/?a=1` with token `T`. -/
theorem C10_slash_query_amended_witness :
    parseUrl ("mapbox".data ++ "://".data ++ "host".data ++ "/?".data ++
        "a=1".data) =
      Except.ok ⟨"mapbox".data, "host".data, ['/'],
        splitOnChar '&' ("/?".data ++ "a=1".data)⟩
  ∧ normalizeSourceURL ("mapbox".data ++ "://".data ++ "host".data ++
        "/?".data ++ "a=1".data) "T".data =
      Except.ok ("https://api.mapbox.com/v4/".data ++ "host".data ++
        ".json?".data ++ "/?".data ++ "a=1".data ++
        "&secure&access_token=".data ++ "T".data) :=
  C10_slash_query_amended "mapbox".data "host".data "a=1".data "T".data
    (by decide) (by decide) (by decide) (by decide)

/-- Claim C6: for every rewritten endpoint of every resource kind, the query
string is the input locator's params (verbatim, original order), then (for
Source only) the bare `secure` flag, then `access_token={token}` last, joined
with `&` and prefixed with `?` exactly when the list is non-empty
(`queryPart`). -/
theorem C6_query_assembly (url tok : Str) (u : UrlObject)
    (hp : parseUrl url = Except.ok u) :
    normalizeStyleURL url tok =
      Except.ok ("https://api.mapbox.com".data ++
        ("/styles/v1".data ++ u.path) ++
        queryPart (u.params ++ ["access_token=".data ++ tok]))
  ∧ normalizeGlyphsURL url tok =
      Except.ok ("https://api.mapbox.com".data ++
        ("/fonts/v1".data ++ u.path) ++
        queryPart (u.params ++ ["access_token=".data ++ tok]))
  ∧ normalizeSourceURL url tok =
      Except.ok ("https://api.mapbox.com".data ++
        ("/v4/".data ++ u.authority ++ ".json".data) ++
        queryPart ((u.params ++ ["secure".data]) ++
          ["access_token=".data ++ tok]))
  ∧ ∃ p, normalizeSpriteURL url [] ".json".data tok =
      Except.ok ("https://api.mapbox.com".data ++ p ++
        queryPart (u.params ++ ["access_token=".data ++ tok])) := by
  refine ⟨?_, ?_, ?_, ?_⟩
  · unfold normalizeStyleURL
    rw [hp, except_bind_ok, formatUrl_eq]
  · unfold normalizeGlyphsURL
    rw [hp, except_bind_ok, formatUrl_eq]
  · unfold normalizeSourceURL
    rw [hp, except_bind_ok, formatUrl_eq]
  · unfold normalizeSpriteURL
    rw [hp, except_bind_ok]
    cases hpp : (splitOnChar '/' u.path).filter (fun p => p.length > 0) with
    | nil =>
      dsimp only
      exact ⟨_, formatUrl_eq _ _⟩
    | cons x xs =>
      cases xs with
      | nil =>
        dsimp only
        exact ⟨_, formatUrl_eq _ _⟩
      | cons y ys =>
        dsimp only
        exact ⟨_, formatUrl_eq _ _⟩

/-- Witness for C6 at `mapbox://host/path?x=1` with token `T`. -/
theorem C6_query_assembly_witness :
    parseUrl "mapbox://host/path?x=1".data =
      Except.ok ⟨"mapbox".data, "host".data, "/path".data, ["x=1".data]⟩
  ∧ (normalizeStyleURL "mapbox://host/path?x=1".data "T".data =
      Except.ok ("https://api.mapbox.com".data ++
        ("/styles/v1".data ++ "/path".data) ++
        queryPart (["x=1".data] ++ ["access_token=".data ++ "T".data]))) := by
  constructor
  · decide
  · exact (C6_query_assembly "mapbox://host/path?x=1".data "T".data
      ⟨"mapbox".data, "host".data, "/path".data, ["x=1".data]⟩
      (by decide)).1

/-- Claim C4 counterexample: for `mapbox://sprites/user/styleid@2x` the
`@2x` is not removed from the style-identifier segment: the output path is
`/styles/v1/user/styleid@2x/sprite@2x`, not the claimed
`/styles/v1/user/styleid/sprite@2x`. -/
theorem C4_sprite_2x_cex :
    normalizeSpriteURL "mapbox://sprites/user/styleid@2x".data [] ".json".data
        "TKN".data =
      Except.ok
        "https://api.mapbox.com/styles/v1/user/styleid@2x/sprite@2x?access_token=TKN".data
  ∧ normalizeSpriteURL "mapbox://sprites/user/styleid@2x".data [] ".json".data
        "TKN".data ≠
      Except.ok
        "https://api.mapbox.com/styles/v1/user/styleid/sprite@2x?access_token=TKN".data
    := by
  constructor
  · decide
  · decide

/-- Claim C4 (amended): for every sprite locator whose parsed path has at
least two non-empty segments, the output path is
`/styles/v1/{owner}/{styleId}/sprite` with `@2x` appended exactly when the
literal `@2x` occurs anywhere in the raw locator; the owner and style id are
the first two non-empty path segments taken verbatim (so a `@2x` inside the
second segment stays there), any further segments are discarded, and the
path carries no file extension. -/
theorem C4_sprite_primary_amended (url tok : Str) (u : UrlObject)
    (username styleId : Str) (rest : List Str)
    (hp : parseUrl url = Except.ok u)
    (hsplit : (splitOnChar '/' u.path).filter (fun p => p.length > 0) =
      username :: styleId :: rest) :
    normalizeSpriteURL url [] ".json".data tok =
      Except.ok ("https://api.mapbox.com".data ++
        ("/styles/v1/".data ++ username ++ ['/'] ++ styleId ++
          "/sprite".data ++
          (if hasSub "@2x".data url then "@2x".data else [])) ++
        queryPart (u.params ++ ["access_token=".data ++ tok])) := by
  unfold normalizeSpriteURL
  rw [hp, except_bind_ok, hsplit]
  dsimp only
  rw [formatUrl_eq]

/-- Witness for C4 (amended): `mapbox://sprites/user/styleid/draftToken`
drops the draft segment. -/
theorem C4_sprite_primary_amended_witness :
    normalizeSpriteURL "mapbox://sprites/user/styleid/draftToken".data []
        ".json".data "TKN".data =
      Except.ok ("https://api.mapbox.com".data ++
        ("/styles/v1/".data ++ "user".data ++ ['/'] ++ "styleid".data ++
          "/sprite".data ++
          (if hasSub "@2x".data "mapbox://sprites/user/styleid/draftToken".data
            then "@2x".data else [])) ++
        queryPart (["access_token=".data ++ "TKN".data])) := by
  have h := C4_sprite_primary_amended
    "mapbox://sprites/user/styleid/draftToken".data "TKN".data
    ⟨"mapbox".data, "sprites".data, "/user/styleid/draftToken".data, []⟩
    "user".data "styleid".data ["draftToken".data]
    (by decide) (by decide)
  simpa using h

theorem splitOnChar_headD (sep : Char) (s : Str) :
    (splitOnChar sep s).headD [] = s.takeWhile (fun c => !(c == sep)) := by
  induction s with
  | nil => simp [splitOnChar]
  | cons c cs ih =>
    by_cases hc : c = sep
    · have hcb : (c == sep) = true := by simp [hc]
      simp [splitOnChar, hcb, List.takeWhile_cons]
    · have hcb : (c == sep) = false := by simp [hc]
      simp only [splitOnChar, hcb, Bool.false_eq_true, if_false,
        List.takeWhile_cons, Bool.not_false, if_true, List.headD_cons]
      rw [ih]

theorem splitOnChar_get1 (sep : Char) (s : Str) :
    (splitOnChar sep s).get? 1 =
      (if (s.dropWhile (fun c => !(c == sep))).isEmpty then none
       else some (((s.dropWhile (fun c => !(c == sep))).tail).takeWhile
         (fun c => !(c == sep)))) := by
  induction s with
  | nil => simp [splitOnChar]
  | cons c cs ih =>
    obtain ⟨r, rs, hr⟩ : ∃ r rs, splitOnChar sep cs = r :: rs := by
      cases h : splitOnChar sep cs with
      | nil => exact absurd h (splitOnChar_ne_nil _ _)
      | cons r rs => exact ⟨r, rs, rfl⟩
    by_cases hc : c = sep
    · have hcb : (c == sep) = true := by simp [hc]
      have hhead : r = cs.takeWhile (fun x => !(x == sep)) := by
        have h2 := splitOnChar_headD sep cs
        rw [hr] at h2
        simpa using h2
      simp [splitOnChar, hcb, List.dropWhile_cons, hr, hhead]
    · have hcb : (c == sep) = false := by simp [hc]
      rw [hr] at ih
      simp only [splitOnChar, hcb, Bool.false_eq_true, if_false, hr,
        List.dropWhile_cons, Bool.not_false, if_true, List.tail_cons,
        List.get?_cons_succ]
      simpa using ih

/-- Claim C7 counterexample: for the fallback sprite locator
`mapbox://sprites/file.x.y` (one path segment, two dots) the extension used
is only the portion between the first and second dot (`x`), not the whole
remainder after the first dot (`x.y`): the output is `...sprite.x`, not
`...sprite.x.y`. -/
theorem C7_fallback_multidot_cex :
    normalizeSpriteURL "mapbox://sprites/file.x.y".data [] ".json".data
        "TKN".data =
      Except.ok
        "https://api.mapbox.com/styles/v1/file/sprite.x?access_token=TKN".data
  ∧ normalizeSpriteURL "mapbox://sprites/file.x.y".data [] ".json".data
        "TKN".data ≠
      Except.ok
        "https://api.mapbox.com/styles/v1/file/sprite.x.y?access_token=TKN".data
    := by
  constructor
  · decide
  · decide

/-- Claim C7 (amended): for every sprite locator whose parsed path has fewer
than two non-empty segments, the output path is
`/styles/v1{basePath}/sprite{@2x-or-empty}.{extension}` where basePath is
the path up to the first `.`, the extension is the portion of the path
strictly between the first and the second `.` (to the end when there is only
one dot), defaulting to `json` when the path has no `.` or that portion is
empty — anything after a second `.` is discarded — and the `@2x` marker is
carried exactly when basePath contains `@2x`, basePath being truncated at
its first `@2x` occurrence. -/
theorem C7_fallback_amended (url tok : Str) (u : UrlObject)
    (hp : parseUrl url = Except.ok u)
    (hfew : ((splitOnChar '/' u.path).filter
      (fun p => p.length > 0)).length < 2) :
    (let basePath := u.path.takeWhile (fun c => !(c == '.'))
     let afterDot := u.path.dropWhile (fun c => !(c == '.'))
     let ext : Str :=
       if afterDot.isEmpty then "json".data
       else if (afterDot.tail.takeWhile (fun c => !(c == '.'))).isEmpty then
         "json".data
       else afterDot.tail.takeWhile (fun c => !(c == '.'))
     let pf : Str × Str :=
       if hasSub "@2x".data basePath then
         (takeBeforeSub "@2x".data basePath, "@2x".data)
       else (basePath, [])
     normalizeSpriteURL url [] ".json".data tok =
       Except.ok ("https://api.mapbox.com".data ++
         ("/styles/v1".data ++ pf.1 ++ "/sprite".data ++ pf.2 ++ ['.'] ++
           ext) ++
         queryPart (u.params ++ ["access_token=".data ++ tok]))) := by
  unfold normalizeSpriteURL
  rw [hp, except_bind_ok]
  cases hsp : (splitOnChar '/' u.path).filter (fun p => p.length > 0) with
  | nil =>
    dsimp only
    rw [formatUrl_eq, splitOnChar_headD, splitOnChar_get1]
    by_cases hd : (u.path.dropWhile (fun c => !(c == '.'))).isEmpty <;>
      by_cases hm : ((u.path.dropWhile
          (fun c => !(c == '.'))).tail.takeWhile
          (fun c => !(c == '.'))).isEmpty <;>
      simp [hd, hm]
  | cons x xs =>
    cases xs with
    | nil =>
      dsimp only
      rw [formatUrl_eq, splitOnChar_headD, splitOnChar_get1]
      by_cases hd : (u.path.dropWhile (fun c => !(c == '.'))).isEmpty <;>
        by_cases hm : ((u.path.dropWhile
            (fun c => !(c == '.'))).tail.takeWhile
            (fun c => !(c == '.'))).isEmpty <;>
        simp [hd, hm]
    | cons y ys =>
      rw [hsp] at hfew
      simp at hfew
      omega

/-- Witness for C7 (amended) at `mapbox://sprites/file.x.y` with token
`TKN`. -/
theorem C7_fallback_amended_witness :
    normalizeSpriteURL "mapbox://sprites/file.x.y".data [] ".json".data
        "TKN".data =
      Except.ok
        "https://api.mapbox.com/styles/v1/file/sprite.x?access_token=TKN".data
    := by
  have h := C7_fallback_amended "mapbox://sprites/file.x.y".data "TKN".data
    ⟨"mapbox".data, "sprites".data, "/file.x.y".data, []⟩
    (by decide) (by decide)
  exact h.trans (by decide)

/-- Claim C1 counterexample: `transformMapboxStyle` does raise: for a style
whose single sources entry has url `mapbox:/onlyoneslash` (mapbox-prefixed
but not matching the locator regex), the role-`Source` fallback dispatches
it to the source normalizer and the parser error propagates out of the
public function instead of being caught. -/
theorem C1_walker_throws_cex :
    transformMapboxStyle
      ⟨none, some [("a".data, ⟨some "mapbox:/onlyoneslash".data, []⟩)],
        none, none, []⟩ "TKN".data =
      Except.error "Unable to parse URL object".data := by decide

/-- Claim C1 (amended): the Walker does not catch parser errors.  For any
reference value starting with `mapbox:` that fails the locator pattern and
matches none of the dispatch substrings: a sources entry holding it is
dispatched via the `Source` role fallback to the source normalizer and the
`MalformedLocator` error propagates out of `transformMapboxStyle`; the
sprite and glyphs fields holding it are classified "no rewrite" and are
passed through unchanged with no error. -/
theorem C1_error_propagation_amended (u tok : Str)
    (hpre : isMapboxURL u = true)
    (hperr : parseUrl u = Except.error parseErrorMessage)
    (h1 : hasSub "/styles/".data u = false)
    (h2 : hasSub "/sprites/".data u = false)
    (h3 : hasSub "/fonts/".data u = false)
    (h4 : hasSub "/v4/".data u = false) :
    (∀ (proj : Option Projection) (oth : List (Str × Str)) (sid : Str)
        (props : List (Str × Str)) (rest : List (Str × SourceDesc))
        (spr : Option SpriteVal) (gl : Option Str),
      transformMapboxStyle
          ⟨proj, some ((sid, ⟨some u, props⟩) :: rest), spr, gl, oth⟩ tok =
        Except.error parseErrorMessage)
  ∧ (∀ (proj : Option Projection) (oth : List (Str × Str)),
      transformMapboxStyle
          ⟨proj, none, some (SpriteVal.str u), some u, oth⟩ tok =
        Except.ok ⟨proj.map (fun p => { p with name := none }), none,
          some (SpriteVal.str u), some u, oth⟩) := by
  have hne : u.isEmpty = false := by
    cases u with
    | nil => exact absurd hpre (by decide)
    | cons a as => rfl
  have hsrc : transformMapboxUrl u "Source".data tok =
      Except.error parseErrorMessage := by
    simp only [transformMapboxUrl, h1, h2, h3, h4, Bool.false_and,
      Bool.false_eq_true, if_false,
      show (!("Source".data.isEmpty) &&
        ("Source".data == "Source".data)) = true from by decide, if_true]
    unfold normalizeSourceURL
    rw [hperr]
    rfl
  have hspr : transformMapboxUrl u "Sprite".data tok = Except.ok none := by
    simp only [transformMapboxUrl, h1, h2, h3, h4, Bool.false_and,
      Bool.false_eq_true, if_false,
      show (!("Sprite".data.isEmpty) &&
        ("Sprite".data == "Source".data)) = false from by decide]
  have hgl : transformMapboxUrl u "Glyphs".data tok = Except.ok none := by
    simp only [transformMapboxUrl, h1, h2, h3, h4, Bool.false_and,
      Bool.false_eq_true, if_false,
      show (!("Glyphs".data.isEmpty) &&
        ("Glyphs".data == "Source".data)) = false from by decide]
  constructor
  · intro proj oth sid props rest spr gl
    simp only [transformMapboxStyle, transformSourcesList, hne,
      Bool.not_false, hpre, Bool.true_and, if_true, hsrc,
      except_bind_error, except_bind_ok, except_pure_eq]
  · intro proj oth
    simp only [transformMapboxStyle, transformSpriteField,
      transformGlyphsField, hne, Bool.not_false, hpre, Bool.true_and,
      if_true, hspr, hgl, except_bind_error, except_bind_ok, except_pure_eq]

/-- Witness for C1 (amended) at `u = "mapbox:/onlyoneslash"`,
`tok = "TKN"`. -/
theorem C1_error_propagation_amended_witness :
    transformMapboxStyle
        ⟨none, some [("a".data, ⟨some "mapbox:/onlyoneslash".data, []⟩)],
          none, none, []⟩ "TKN".data =
      Except.error parseErrorMessage
  ∧ transformMapboxStyle
        ⟨none, none, some (SpriteVal.str "mapbox:/onlyoneslash".data),
          some "mapbox:/onlyoneslash".data, []⟩ "TKN".data =
      Except.ok ⟨none, none,
        some (SpriteVal.str "mapbox:/onlyoneslash".data),
        some "mapbox:/onlyoneslash".data, []⟩ := by
  have h := C1_error_propagation_amended "mapbox:/onlyoneslash".data
    "TKN".data (by decide) (by decide) (by decide) (by decide) (by decide)
    (by decide)
  exact ⟨h.1 none [] "a".data [] [] none none, h.2 none []⟩

/-! ### Walker lemmas -/

theorem transformSourcesList_frame (tok : Str)
    (l l' : List (Str × SourceDesc))
    (h : transformSourcesList l tok = Except.ok l') :
    List.Forall₂ (fun a b : Str × SourceDesc =>
      a.1 = b.1 ∧ a.2.otherProps = b.2.otherProps ∧
      ((∀ s, a.2.url = some s → isMapboxURL s = false) → b = a)) l l' := by
  induction l generalizing l' with
  | nil =>
    simp only [transformSourcesList] at h
    cases h
    exact List.Forall₂.nil
  | cons hd tl ih =>
    obtain ⟨sid, src⟩ := hd
    simp only [transformSourcesList] at h
    cases hu : src.url with
    | none =>
      rw [hu] at h
      simp only [except_pure_eq, except_bind_ok] at h
      cases hrest : transformSourcesList tl tok with
      | error e => rw [hrest] at h; simp at h
      | ok rest' =>
        rw [hrest] at h
        simp only [except_bind_ok, except_pure_eq] at h
        cases h
        exact List.Forall₂.cons ⟨rfl, rfl, fun _ => rfl⟩ (ih _ hrest)
    | some uu =>
      rw [hu] at h
      by_cases hg : (!uu.isEmpty && isMapboxURL uu) = true
      · simp only [hg, if_true] at h
        cases htm : transformMapboxUrl uu "Source".data tok with
        | error e => rw [htm] at h; simp at h
        | ok tr =>
          rw [htm] at h
          simp only [except_bind_ok] at h
          cases tr with
          | none =>
            simp only [except_pure_eq, except_bind_ok] at h
            cases hrest : transformSourcesList tl tok with
            | error e => rw [hrest] at h; simp at h
            | ok rest' =>
              rw [hrest] at h
              simp only [except_bind_ok, except_pure_eq] at h
              cases h
              exact List.Forall₂.cons ⟨rfl, rfl, fun _ => rfl⟩ (ih _ hrest)
          | some t =>
            simp only [except_pure_eq, except_bind_ok] at h
            cases hrest : transformSourcesList tl tok with
            | error e => rw [hrest] at h; simp at h
            | ok rest' =>
              rw [hrest] at h
              simp only [except_bind_ok, except_pure_eq] at h
              cases h
              refine List.Forall₂.cons ⟨rfl, rfl, ?_⟩ (ih _ hrest)
              intro hnm
              have hmb : isMapboxURL uu = true :=
                ((Bool.and_eq_true _ _).mp hg).2
              exact absurd (hnm uu hu) (by simp [hmb])
      · have hg2 : (!uu.isEmpty && isMapboxURL uu) = false := by
          cases hb : (!uu.isEmpty && isMapboxURL uu)
          · rfl
          · exact absurd hb hg
        simp only [hg2, Bool.false_eq_true, if_false, except_pure_eq,
          except_bind_ok] at h
        cases hrest : transformSourcesList tl tok with
        | error e => rw [hrest] at h; simp at h
        | ok rest' =>
          rw [hrest] at h
          simp only [except_bind_ok, except_pure_eq] at h
          cases h
          exact List.Forall₂.cons ⟨rfl, rfl, fun _ => rfl⟩ (ih _ hrest)

theorem transformSourcesList_idem (tok : Str) (l l' : List (Str × SourceDesc))
    (h : transformSourcesList l tok = Except.ok l') :
    transformSourcesList l' tok = Except.ok l' := by
  induction l generalizing l' with
  | nil =>
    simp only [transformSourcesList] at h
    cases h
    rfl
  | cons hd tl ih =>
    obtain ⟨sid, src⟩ := hd
    simp only [transformSourcesList] at h
    cases hu : src.url with
    | none =>
      rw [hu] at h
      simp only [except_pure_eq, except_bind_ok] at h
      cases hrest : transformSourcesList tl tok with
      | error e => rw [hrest] at h; simp at h
      | ok rest' =>
        rw [hrest] at h
        simp only [except_bind_ok, except_pure_eq] at h
        cases h
        simp only [transformSourcesList, hu, except_pure_eq, except_bind_ok,
          ih _ hrest]
    | some uu =>
      rw [hu] at h
      by_cases hg : (!uu.isEmpty && isMapboxURL uu) = true
      · simp only [hg, if_true] at h
        cases htm : transformMapboxUrl uu "Source".data tok with
        | error e => rw [htm] at h; simp at h
        | ok tr =>
          rw [htm] at h
          simp only [except_bind_ok] at h
          cases tr with
          | none =>
            simp only [except_pure_eq, except_bind_ok] at h
            cases hrest : transformSourcesList tl tok with
            | error e => rw [hrest] at h; simp at h
            | ok rest' =>
              rw [hrest] at h
              simp only [except_bind_ok, except_pure_eq] at h
              cases h
              simp only [transformSourcesList, hu, hg, if_true, htm,
                except_bind_ok, except_pure_eq, ih _ hrest]
          | some t =>
            simp only [except_pure_eq, except_bind_ok] at h
            cases hrest : transformSourcesList tl tok with
            | error e => rw [hrest] at h; simp at h
            | ok rest' =>
              rw [hrest] at h
              simp only [except_bind_ok, except_pure_eq] at h
              cases h
              have hm : isMapboxURL t = false :=
                transformMapboxUrl_ok_some _ _ _ _ htm
              simp only [transformSourcesList, hm, Bool.and_false,
                Bool.false_eq_true, if_false, except_pure_eq, except_bind_ok,
                ih _ hrest]
      · have hg2 : (!uu.isEmpty && isMapboxURL uu) = false := by
          cases hb : (!uu.isEmpty && isMapboxURL uu)
          · rfl
          · exact absurd hb hg
        simp only [hg2, Bool.false_eq_true, if_false, except_pure_eq,
          except_bind_ok] at h
        cases hrest : transformSourcesList tl tok with
        | error e => rw [hrest] at h; simp at h
        | ok rest' =>
          rw [hrest] at h
          simp only [except_bind_ok, except_pure_eq] at h
          cases h
          simp only [transformSourcesList, hu, hg2, Bool.false_eq_true,
            if_false, except_pure_eq, except_bind_ok, ih _ hrest]

theorem transformSpriteField_idem (tok : Str) (sp sp' : Option SpriteVal)
    (h : transformSpriteField sp tok = Except.ok sp') :
    transformSpriteField sp' tok = Except.ok sp' := by
  cases sp with
  | none =>
    simp only [transformSpriteField, except_pure_eq] at h
    cases h
    rfl
  | some v =>
    cases v with
    | structured w =>
      simp only [transformSpriteField, except_pure_eq] at h
      cases h
      rfl
    | str s =>
      simp only [transformSpriteField] at h
      by_cases hg : (!s.isEmpty && isMapboxURL s) = true
      · simp only [hg, if_true] at h
        cases htm : transformMapboxUrl s "Sprite".data tok with
        | error e => rw [htm] at h; simp at h
        | ok tr =>
          rw [htm] at h
          simp only [except_bind_ok] at h
          cases tr with
          | none =>
            simp only [except_pure_eq] at h
            cases h
            simp only [transformSpriteField, hg, if_true, htm,
              except_bind_ok, except_pure_eq]
          | some t =>
            simp only [except_pure_eq] at h
            cases h
            have hm : isMapboxURL t = false :=
              transformMapboxUrl_ok_some _ _ _ _ htm
            simp only [transformSpriteField, hm, Bool.and_false,
              Bool.false_eq_true, if_false, except_pure_eq]
      · have hg2 : (!s.isEmpty && isMapboxURL s) = false := by
          cases hb : (!s.isEmpty && isMapboxURL s)
          · rfl
          · exact absurd hb hg
        simp only [hg2, Bool.false_eq_true, if_false, except_pure_eq] at h
        cases h
        simp only [transformSpriteField, hg2, Bool.false_eq_true, if_false,
          except_pure_eq]

theorem transformGlyphsField_idem (tok : Str) (gl gl' : Option Str)
    (h : transformGlyphsField gl tok = Except.ok gl') :
    transformGlyphsField gl' tok = Except.ok gl' := by
  cases gl with
  | none =>
    simp only [transformGlyphsField, except_pure_eq] at h
    cases h
    rfl
  | some g =>
    simp only [transformGlyphsField] at h
    by_cases hg : (!g.isEmpty && isMapboxURL g) = true
    · simp only [hg, if_true] at h
      cases htm : transformMapboxUrl g "Glyphs".data tok with
      | error e => rw [htm] at h; simp at h
      | ok tr =>
        rw [htm] at h
        simp only [except_bind_ok] at h
        cases tr with
        | none =>
          simp only [except_pure_eq] at h
          cases h
          simp only [transformGlyphsField, hg, if_true, htm,
            except_bind_ok, except_pure_eq]
        | some t =>
          simp only [except_pure_eq] at h
          cases h
          have hm : isMapboxURL t = false :=
            transformMapboxUrl_ok_some _ _ _ _ htm
          simp only [transformGlyphsField, hm, Bool.and_false,
            Bool.false_eq_true, if_false, except_pure_eq]
    · have hg2 : (!g.isEmpty && isMapboxURL g) = false := by
        cases hb : (!g.isEmpty && isMapboxURL g)
        · rfl
        · exact absurd hb hg
      simp only [hg2, Bool.false_eq_true, if_false, except_pure_eq] at h
      cases h
      simp only [transformGlyphsField, hg2, Bool.false_eq_true, if_false,
        except_pure_eq]

theorem transformMapboxStyle_ok_fix (style : StyleSpec) (tok : Str)
    (out : StyleSpec) (h : transformMapboxStyle style tok = Except.ok out) :
    transformMapboxStyle out tok = Except.ok out := by
  have hff : ∀ (o : Option Projection),
      (o.map (fun p => { p with name := none })).map
        (fun p => { p with name := none }) =
      o.map (fun p => { p with name := none }) := by
    intro o
    cases o <;> rfl
  simp only [transformMapboxStyle] at h
  cases hso : style.sources with
  | none =>
    rw [hso] at h
    dsimp only at h
    simp only [except_pure_eq, except_bind_ok] at h
    cases hsp : transformSpriteField style.sprite tok with
    | error e => rw [hsp] at h; simp at h
    | ok sp' =>
      rw [hsp] at h
      simp only [except_bind_ok] at h
      cases hgl : transformGlyphsField style.glyphs tok with
      | error e => rw [hgl] at h; simp at h
      | ok gl' =>
        rw [hgl] at h
        simp only [except_bind_ok, except_pure_eq] at h
        cases h
        simp only [transformMapboxStyle]
        rw [hff]
        simp only [transformSpriteField_idem tok _ _ hsp,
          transformGlyphsField_idem tok _ _ hgl, except_bind_ok,
          except_pure_eq]
  | some l =>
    rw [hso] at h
    dsimp only at h
    cases hsl : transformSourcesList l tok with
    | error e => rw [hsl] at h; simp at h
    | ok l' =>
      rw [hsl] at h
      simp only [except_bind_ok, except_pure_eq] at h
      cases hsp : transformSpriteField style.sprite tok with
      | error e => rw [hsp] at h; simp at h
      | ok sp' =>
        rw [hsp] at h
        simp only [except_bind_ok] at h
        cases hgl : transformGlyphsField style.glyphs tok with
        | error e => rw [hgl] at h; simp at h
        | ok gl' =>
          rw [hgl] at h
          simp only [except_bind_ok, except_pure_eq] at h
          cases h
          simp only [transformMapboxStyle]
          rw [hff]
          simp only [transformSourcesList_idem tok _ _ hsl,
            transformSpriteField_idem tok _ _ hsp,
            transformGlyphsField_idem tok _ _ hgl, except_bind_ok,
            except_pure_eq]

/-- Claim C9: applying `transformMapboxStyle` a second time to the result of
a first application is a no-op: every successfully rewritten reference
begins with `https:`, so the `mapbox:` prefix check fails on the second
pass, and `projection.name` is already absent. -/
theorem C9_second_pass_noop (d : StyleSpec) (t : Str) :
    (transformMapboxStyle d t).bind (fun out => transformMapboxStyle out t) =
      transformMapboxStyle d t := by
  cases h : transformMapboxStyle d t with
  | error e => rfl
  | ok out =>
    have h2 := transformMapboxStyle_ok_fix d t out h
    simpa [Except.bind] using h2

/-- Claim C8: `transformMapboxStyle` strips `projection.name` first and
regardless of any rewriting (transforming a document equals transforming the
document with the name already stripped), and on success mutates nothing but
`projection.name`, the `url` of sources entries, a string `sprite` field and
the `glyphs` field: the other top-level fields and each source's other
properties are unchanged, a sources entry whose url does not start with
`mapbox:` is unchanged, and a `none` or structured sprite is untouched. -/
theorem C8_frame_conditions (style : StyleSpec) (tok : Str) :
    transformMapboxStyle style tok =
      transformMapboxStyle
        { style with projection :=
            style.projection.map (fun p => { p with name := none }) } tok
  ∧ ∀ out, transformMapboxStyle style tok = Except.ok out →
      out.projection =
        style.projection.map (fun p => { p with name := none })
      ∧ out.otherFields = style.otherFields
      ∧ (style.sources = none → out.sources = none)
      ∧ (∀ l, style.sources = some l → ∃ l', out.sources = some l' ∧
          List.Forall₂ (fun a b : Str × SourceDesc =>
            a.1 = b.1 ∧ a.2.otherProps = b.2.otherProps ∧
            ((∀ s, a.2.url = some s → isMapboxURL s = false) → b = a)) l l')
      ∧ (style.sprite = none → out.sprite = none)
      ∧ (∀ v, style.sprite = some (SpriteVal.structured v) →
          out.sprite = some (SpriteVal.structured v))
      ∧ (∀ s, style.sprite = some (SpriteVal.str s) →
          isMapboxURL s = false → out.sprite = some (SpriteVal.str s)) := by
  constructor
  · have hff : (style.projection.map
        (fun p => { p with name := none })).map
        (fun p => { p with name := none }) =
        style.projection.map (fun p => { p with name := none }) := by
      cases style.projection <;> rfl
    simp only [transformMapboxStyle]
    rw [hff]
  · intro out h
    simp only [transformMapboxStyle] at h
    cases hso : style.sources with
    | none =>
      rw [hso] at h
      dsimp only at h
      simp only [except_pure_eq, except_bind_ok] at h
      cases hsp : transformSpriteField style.sprite tok with
      | error e => rw [hsp] at h; simp at h
      | ok sp' =>
        rw [hsp] at h
        simp only [except_bind_ok] at h
        cases hgl : transformGlyphsField style.glyphs tok with
        | error e => rw [hgl] at h; simp at h
        | ok gl' =>
          rw [hgl] at h
          simp only [except_bind_ok, except_pure_eq] at h
          cases h
          refine ⟨rfl, rfl, fun _ => rfl, ?_, ?_, ?_, ?_⟩
          · intro l hl
            exact Option.noConfusion hl
          · intro hs
            rw [hs] at hsp
            simp only [transformSpriteField, except_pure_eq] at hsp
            cases hsp
            rfl
          · intro v hv
            rw [hv] at hsp
            simp only [transformSpriteField, except_pure_eq] at hsp
            cases hsp
            rfl
          · intro s0 hs0 hm
            rw [hs0] at hsp
            simp only [transformSpriteField, hm, Bool.and_false,
              Bool.false_eq_true, if_false, except_pure_eq] at hsp
            cases hsp
            rfl
    | some l =>
      rw [hso] at h
      dsimp only at h
      cases hsl : transformSourcesList l tok with
      | error e => rw [hsl] at h; simp at h
      | ok l' =>
        rw [hsl] at h
        simp only [except_bind_ok, except_pure_eq] at h
        cases hsp : transformSpriteField style.sprite tok with
        | error e => rw [hsp] at h; simp at h
        | ok sp' =>
          rw [hsp] at h
          simp only [except_bind_ok] at h
          cases hgl : transformGlyphsField style.glyphs tok with
          | error e => rw [hgl] at h; simp at h
          | ok gl' =>
            rw [hgl] at h
            simp only [except_bind_ok, except_pure_eq] at h
            cases h
            refine ⟨rfl, rfl, ?_, ?_, ?_, ?_, ?_⟩
            · intro h0
              exact Option.noConfusion h0
            · intro l0 hl0
              cases hl0
              exact ⟨l', rfl, transformSourcesList_frame tok _ _ hsl⟩
            · intro hs
              rw [hs] at hsp
              simp only [transformSpriteField, except_pure_eq] at hsp
              cases hsp
              rfl
            · intro v hv
              rw [hv] at hsp
              simp only [transformSpriteField, except_pure_eq] at hsp
              cases hsp
              rfl
            · intro s0 hs0 hm
              rw [hs0] at hsp
              simp only [transformSpriteField, hm, Bool.and_false,
                Bool.false_eq_true, if_false, except_pure_eq] at hsp
              cases hsp
              rfl

/-- Witness for C8 at a concrete style: projection name is stripped, a
non-mapbox sources url survives, and a structured sprite is untouched. -/
theorem C8_frame_conditions_witness :
    transformMapboxStyle
        ⟨some ⟨some "globe".data, [("type".data, "globe".data)]⟩,
          some [("b".data, ⟨some "https://x".data, []⟩)],
          some (SpriteVal.structured []), none, []⟩ "TKN".data =
      Except.ok
        ⟨some ⟨none, [("type".data, "globe".data)]⟩,
          some [("b".data, ⟨some "https://x".data, []⟩)],
          some (SpriteVal.structured []), none, []⟩
  ∧ (⟨some ⟨none, [("type".data, "globe".data)]⟩,
        some [("b".data, ⟨some "https://x".data, []⟩)],
        some (SpriteVal.structured []), none, []⟩ : StyleSpec).projection =
      (⟨some ⟨some "globe".data, [("type".data, "globe".data)]⟩,
        some [("b".data, ⟨some "https://x".data, []⟩)],
        some (SpriteVal.structured []), none, []⟩ : StyleSpec).projection.map
        (fun p => { p with name := none })
  ∧ (⟨some ⟨none, [("type".data, "globe".data)]⟩,
        some [("b".data, ⟨some "https://x".data, []⟩)],
        some (SpriteVal.structured []), none, []⟩ : StyleSpec).sprite =
      some (SpriteVal.structured []) := by
  have h := (C8_frame_conditions
    ⟨some ⟨some "globe".data, [("type".data, "globe".data)]⟩,
      some [("b".data, ⟨some "https://x".data, []⟩)],
      some (SpriteVal.structured []), none, []⟩ "TKN".data).2
    ⟨some ⟨none, [("type".data, "globe".data)]⟩,
      some [("b".data, ⟨some "https://x".data, []⟩)],
      some (SpriteVal.structured []), none, []⟩ (by decide)
  exact ⟨by decide, h.1, h.2.2.2.2.2.1 [] rfl⟩
